import Mathlib

/-!
Shallow embedding of the `@nodelibraries/enhanced-abort-controller` library
(files `src/AbortError.ts`, `src/AbortRegistration.ts`,
`src/EnhancedAbortSignal.ts`, `src/EnhancedAbortController.ts`).

The library wraps the platform `AbortController`/`AbortSignal` pair.  We model:
  * an abort reason as `Option Nat` (`none` = the argument was omitted /
    `undefined`; the claims only compare reasons for equality, so an opaque
    countable carrier suffices);
  * the platform `AbortSignal` as a `SignalSource`: an aborted flag, the
    stored reason, and the ordered list of attached `abort` listeners.  Every
    listener was attached with `{ once := true }`, so firing the source
    invokes all current listeners in order and removes them.  Each listener
    closure gets a unique token (`tok`, modelling JS closure identity) and
    carries the id of the user callback it wraps (`cb`);
  * `AbortController.abort(reason)` (`SignalSource.abortSource`): a no-op on
    an already-aborted signal, otherwise it stores the reason and fires the
    listeners;
  * callback execution as a trace: running a listener with callback id `i`
    appends `i` to the list of invocations returned by the operation.

Stateful methods are state-passing functions; methods that invoke callbacks
additionally return the ordered list of callback ids they invoked.
-/

namespace EnhancedAbort

/-- An abort reason: `none` models the omitted / `undefined` argument. -/
abbrev Reason := Option Nat

/-- One listener attached to the platform signal via
`addEventListener('abort', listener, { once: true })`.  `tok` models the
identity of the listener closure, `cb` is the id of the user callback the
closure `() => callback()` wraps. -/
structure Listener where
  tok : Nat
  cb : Nat
deriving Repr, DecidableEq

/-- The state of a platform `AbortSignal` (the substrate both
`EnhancedAbortSignal` and `EnhancedAbortController` build on). -/
structure SignalSource where
  aborted : Bool
  reason : Reason
  listeners : List Listener
  nextTok : Nat
deriving Repr, DecidableEq

/-- The signal of a freshly constructed `new AbortController()`. -/
def SignalSource.fresh : SignalSource :=
  { aborted := false, reason := none, listeners := [], nextTok := 0 }

/-- Platform `AbortController.abort(reason)`: if the signal is already
aborted this does nothing; otherwise the signal becomes aborted with the
given reason and every attached listener fires once, in attachment order
(`{ once := true }` then removes them all).  Returns the new signal state
and the fired listeners in order. -/
def SignalSource.abortSource (s : SignalSource) (r : Reason) :
    SignalSource × List Listener :=
  if s.aborted then (s, [])
  else ({ aborted := true, reason := r, listeners := [], nextTok := s.nextTok },
        s.listeners)

/-- The removal action captured by an `AbortRegistration`.  `register` on a
not-yet-aborted signal hands the registration the closure
`() => this.abortSignal.removeEventListener('abort', listener)` (here:
`removeListener` with that listener's token); `register` on an aborted
signal hands it the empty closure `() => {}` (here: `noop`). -/
inductive RegAction where
  | noop
  | removeListener (tok : Nat)
deriving Repr, DecidableEq

/-- Effect of a removal action on a signal source: the empty closure does
nothing, `removeEventListener` removes the listener with that token. -/
def RegAction.run : RegAction → SignalSource → SignalSource
  | .noop, s => s
  | .removeListener tok, s =>
      { s with listeners := s.listeners.filter (fun l => l.tok ≠ tok) }

/-- `AbortRegistration` (src/AbortRegistration.ts): a disposed flag and the
optional stored unregister callback. -/
structure AbortRegistration where
  disposed : Bool
  unregisterCallback : Option RegAction
deriving Repr, DecidableEq

/-- `new AbortRegistration(unregisterCallback)`. -/
def AbortRegistration.make (a : RegAction) : AbortRegistration :=
  { disposed := false, unregisterCallback := some a }

/-- `AbortRegistration.unregister()`: when not yet disposed and a callback
is stored, invoke it, clear it and set the disposed flag.  Returns the new
registration state together with the action that was invoked, if any. -/
def AbortRegistration.unregister (r : AbortRegistration) :
    AbortRegistration × Option RegAction :=
  if !r.disposed ∧ r.unregisterCallback.isSome then
    ({ disposed := true, unregisterCallback := none }, r.unregisterCallback)
  else (r, none)

/-- `AbortRegistration.dispose()` is literally `this.unregister()`. -/
def AbortRegistration.dispose (r : AbortRegistration) :
    AbortRegistration × Option RegAction :=
  r.unregister

/-- `AbortRegistration.isDisposed`. -/
def AbortRegistration.isDisposed (r : AbortRegistration) : Bool :=
  r.disposed

/-- `AbortError` (src/AbortError.ts): an `Error` subclass with
`name = 'AbortError'` and the given message. -/
structure AbortError where
  name : String
  message : String
deriving Repr, DecidableEq

/-- `new AbortError(message)` with the default parameter
`message = 'The operation was aborted.'` applying when the argument is
omitted (`none`). -/
def AbortError.make (message : Option String) : AbortError :=
  { name := "AbortError", message := message.getD "The operation was aborted." }

namespace EnhancedAbortSignal

/-- `EnhancedAbortSignal.isAborted` / `aborted`: passthrough read of the
underlying signal. -/
def isAborted (s : SignalSource) : Bool := s.aborted

/-- `EnhancedAbortSignal.reason`: passthrough read. -/
def reason (s : SignalSource) : Reason := s.reason

/-- `EnhancedAbortSignal.throwIfAborted(customMessage?)`: throws an
`AbortError` when the signal is aborted, otherwise returns normally. -/
def throwIfAborted (s : SignalSource) (customMessage : Option String) :
    Except AbortError Unit :=
  if isAborted s then .error (AbortError.make customMessage) else .ok ()

/-- Result of `EnhancedAbortSignal.register(callback)`: the updated signal
state, the callbacks invoked synchronously during the call (in order), and
the returned `AbortRegistration`. -/
structure RegisterResult where
  src : SignalSource
  fired : List Nat
  reg : AbortRegistration
deriving Repr, DecidableEq

/-- `EnhancedAbortSignal.register(callback)`: on an aborted signal the
callback runs immediately and the returned registration wraps the empty
closure; otherwise a fresh listener closure wrapping the callback is
attached with `{ once := true }` and the returned registration wraps the
`removeEventListener` closure for that listener. -/
def register (s : SignalSource) (cb : Nat) : RegisterResult :=
  if isAborted s then
    { src := s, fired := [cb], reg := AbortRegistration.make .noop }
  else
    { src := { s with
                listeners := s.listeners ++ [{ tok := s.nextTok, cb := cb }],
                nextTok := s.nextTok + 1 },
      fired := [],
      reg := AbortRegistration.make (.removeListener s.nextTok) }

end EnhancedAbortSignal

/-- `EnhancedAbortController` (src/EnhancedAbortController.ts): owns the
platform controller's signal (`source`), the optional pending
`setTimeout` handle (`timeoutId`, modelled as the absolute time at which
the timer is due), and the disposed flag. -/
structure EnhancedAbortController where
  source : SignalSource
  timeoutId : Option Nat
  disposed : Bool
deriving Repr, DecidableEq

namespace EnhancedAbortController

/-- `new EnhancedAbortController()`. -/
def new : EnhancedAbortController :=
  { source := SignalSource.fresh, timeoutId := none, disposed := false }

/-- `EnhancedAbortController.isAborted`. -/
def isAborted (c : EnhancedAbortController) : Bool := c.source.aborted

/-- `EnhancedAbortController.isDisposed`. -/
def isDisposed (c : EnhancedAbortController) : Bool := c.disposed

/-- `EnhancedAbortController.reason`. -/
def reason (c : EnhancedAbortController) : Reason := c.source.reason

/-- Private `clearTimeout()`: cancels the pending timer if one is set. -/
def clearTimeout (c : EnhancedAbortController) : EnhancedAbortController :=
  { c with timeoutId := none }

/-- `EnhancedAbortController.abort(reason?)`: no-op when disposed;
otherwise cancels the pending timer and aborts the owned platform
controller.  Returns the new state and the callback ids invoked, in
order. -/
def abort (c : EnhancedAbortController) (r : Reason) :
    EnhancedAbortController × List Nat :=
  if c.disposed then (c, [])
  else
    let c1 := c.clearTimeout
    let p := c1.source.abortSource r
    ({ c1 with source := p.1 }, p.2.map Listener.cb)

/-- `EnhancedAbortController.abortAfter(ms)` issued at absolute time
`now`: no-op when disposed; otherwise replaces any pending timer with one
due at `now + ms` whose callback is `() => this.abort()`. -/
def abortAfter (c : EnhancedAbortController) (now ms : Nat) :
    EnhancedAbortController :=
  if c.disposed then c
  else { c.clearTimeout with timeoutId := some (now + ms) }

/-- `EnhancedAbortController.dispose()`: idempotent; sets the disposed
flag and cancels the pending timer.  It does not touch the signal. -/
def dispose (c : EnhancedAbortController) : EnhancedAbortController :=
  if c.disposed then c
  else { c with disposed := true, timeoutId := none }

/-- `EnhancedAbortController.tryReset()`: `false` and no-op when disposed;
otherwise cancels the pending timer and replaces the owned platform
controller and enhanced signal with a fresh pair, returning `true`. -/
def tryReset (c : EnhancedAbortController) :
    EnhancedAbortController × Bool :=
  if c.disposed then (c, false)
  else ({ source := SignalSource.fresh, timeoutId := none, disposed := false },
        true)

/-- The timer service delivering time `t`: when the pending timer is due
(`timeoutId = some d` with `d ≤ t`) its callback `() => this.abort()`
runs; otherwise nothing happens. -/
def elapse (c : EnhancedAbortController) (t : Nat) :
    EnhancedAbortController × List Nat :=
  match c.timeoutId with
  | some d => if d ≤ t then c.abort none else (c, [])
  | none => (c, [])

end EnhancedAbortController

/-- `EnhancedAbortSignal.aborted` static getter: a fresh platform controller
aborted immediately at construction, with no reason. -/
def EnhancedAbortSignal.abortedSignal : SignalSource :=
  (SignalSource.fresh.abortSource none).1

/-- Registering a list of callbacks on a signal, in order, keeping only the
evolving signal state (the registrations are kept by the callers). -/
def registerAll (s : SignalSource) (cbs : List Nat) : SignalSource :=
  cbs.foldl (fun s cb => (EnhancedAbortSignal.register s cb).src) s

/-- A fresh controller whose signal has the given callbacks registered, in
order, before any abort. -/
def controllerWithListeners (cbs : List Nat) : EnhancedAbortController :=
  { EnhancedAbortController.new with
      source := registerAll EnhancedAbortController.new.source cbs }

theorem registerAll_spec (cbs : List Nat) :
    ∀ s : SignalSource, s.aborted = false →
      (registerAll s cbs).aborted = false ∧
      (registerAll s cbs).listeners.map Listener.cb
        = s.listeners.map Listener.cb ++ cbs := by
  induction cbs with
  | nil => intro s h; simp [registerAll, h]
  | cons cb cbs ih =>
    intro s h
    have hs : (EnhancedAbortSignal.register s cb).src
        = { s with listeners := s.listeners ++ [{ tok := s.nextTok, cb := cb }],
                   nextTok := s.nextTok + 1 } := by
      simp [EnhancedAbortSignal.register, EnhancedAbortSignal.isAborted, h]
    have hstep : registerAll s (cb :: cbs)
        = registerAll ((EnhancedAbortSignal.register s cb).src) cbs := by
      simp [registerAll]
    rw [hstep, hs]
    have := ih { s with listeners := s.listeners ++ [{ tok := s.nextTok, cb := cb }],
                        nextTok := s.nextTok + 1 } (by simpa using h)
    simpa using this

/-- The state a fresh controller with callbacks `cbs` registered reaches
after its first `abort r`. -/
def controllerAfterAbort (cbs : List Nat) (r : Reason) :
    EnhancedAbortController :=
  { source := { aborted := true, reason := r, listeners := [],
                nextTok := (registerAll SignalSource.fresh cbs).nextTok },
    timeoutId := none, disposed := false }

theorem abort_controllerWithListeners (cbs : List Nat) (r : Reason) :
    (controllerWithListeners cbs).abort r = (controllerAfterAbort cbs r, cbs) := by
  obtain ⟨hab, hmap⟩ := registerAll_spec cbs SignalSource.fresh rfl
  have hfresh : controllerWithListeners cbs
      = { source := registerAll SignalSource.fresh cbs, timeoutId := none,
          disposed := false } := rfl
  rw [EnhancedAbortController.abort, hfresh]
  simp only []
  rw [if_neg (by simp)]
  simp only [EnhancedAbortController.clearTimeout, SignalSource.abortSource, hab]
  simp only [Bool.false_eq_true, if_false]
  have hl : SignalSource.fresh.listeners = [] := rfl
  rw [hl, List.map_nil, List.nil_append] at hmap
  simp [controllerAfterAbort, hmap]

/-- Claim C1: on a fresh controller with callbacks `cbs` registered on its
signal before any abort, the first `abort r1` fires exactly the registered
callbacks, in registration order, each exactly once (the invocation trace is
exactly `cbs`), leaves the signal aborted with reason `r1`, and a second
`abort r2` is a state-preserving no-op that invokes no callback, so the
stored reason stays `r1`. -/
theorem first_abort_fires_in_order_second_abort_noop
    (cbs : List Nat) (r1 r2 : Reason) :
    ((controllerWithListeners cbs).abort r1).2 = cbs ∧
    ((controllerWithListeners cbs).abort r1).1.isAborted = true ∧
    ((controllerWithListeners cbs).abort r1).1.reason = r1 ∧
    (((controllerWithListeners cbs).abort r1).1.abort r2)
      = (((controllerWithListeners cbs).abort r1).1, []) := by
  rw [abort_controllerWithListeners]
  refine ⟨rfl, rfl, rfl, ?_⟩
  simp [controllerAfterAbort, EnhancedAbortController.abort,
    EnhancedAbortController.clearTimeout, SignalSource.abortSource,
    EnhancedAbortController.isAborted, EnhancedAbortController.reason]

/-- Claim C2, counterexample: `register` on an already-aborted signal
returns `new AbortRegistration(() => {})`, whose `disposed` field is
initialised to `false`; the returned registration is therefore not already
disposed, contradicting the claim that its `isDisposed` is `true`. -/
theorem register_on_aborted_registration_not_predisposed :
    ¬ ((EnhancedAbortSignal.register EnhancedAbortSignal.abortedSignal 0).reg.isDisposed
        = true) := by decide

/-- Claim C2, amended: on an already-aborted signal, `register cb` invokes
`cb` exactly once, synchronously, before returning, leaves the signal
untouched, and returns a registration wrapping the empty removal action
`() => {}` — so unregistering it never affects the signal (the action is the
identity on the source).  However the registration is returned with
`isDisposed = false`; it becomes disposed (and performs the empty action)
only on the first `unregister`/`dispose` call. -/
theorem register_on_aborted_invokes_once_and_noop_registration
    (s : SignalSource) (cb : Nat) (h : s.aborted = true) :
    (EnhancedAbortSignal.register s cb).fired = [cb] ∧
    (EnhancedAbortSignal.register s cb).src = s ∧
    (EnhancedAbortSignal.register s cb).reg
      = AbortRegistration.make .noop ∧
    (EnhancedAbortSignal.register s cb).reg.isDisposed = false ∧
    ((EnhancedAbortSignal.register s cb).reg.unregister).2 = some .noop ∧
    ((EnhancedAbortSignal.register s cb).reg.unregister).1.isDisposed = true ∧
    RegAction.run .noop s = s := by
  simp [EnhancedAbortSignal.register, EnhancedAbortSignal.isAborted, h,
    AbortRegistration.make, AbortRegistration.unregister,
    AbortRegistration.isDisposed, RegAction.run]

theorem register_on_aborted_witness :
    (EnhancedAbortSignal.register EnhancedAbortSignal.abortedSignal 5).fired = [5] ∧
    (EnhancedAbortSignal.register EnhancedAbortSignal.abortedSignal 5).reg.isDisposed
      = false :=
  ⟨(register_on_aborted_invokes_once_and_noop_registration
      EnhancedAbortSignal.abortedSignal 5 (by decide)).1,
   (register_on_aborted_invokes_once_and_noop_registration
      EnhancedAbortSignal.abortedSignal 5 (by decide)).2.2.2.1⟩

/-- Claim C5: `throwIfAborted customMessage` throws exactly when the signal
is aborted; the thrown error is an `AbortError` carrying the custom message
when one was given and the fixed default `"The operation was aborted."`
otherwise; when the signal is not aborted it returns normally.  (Every
other operation of the embedding is a total function, mirroring the absence
of `throw` anywhere else in the library source.) -/
theorem throwIfAborted_iff_aborted (s : SignalSource) (m : Option String) :
    (s.aborted = true →
      EnhancedAbortSignal.throwIfAborted s m
        = .error { name := "AbortError",
                   message := m.getD "The operation was aborted." }) ∧
    (s.aborted = false →
      EnhancedAbortSignal.throwIfAborted s m = .ok ()) := by
  constructor <;> intro h <;>
    simp [EnhancedAbortSignal.throwIfAborted, EnhancedAbortSignal.isAborted, h,
      AbortError.make]

theorem throwIfAborted_witness :
    EnhancedAbortSignal.throwIfAborted EnhancedAbortSignal.abortedSignal (some "stop")
      = .error { name := "AbortError", message := "stop" } ∧
    EnhancedAbortSignal.throwIfAborted EnhancedAbortSignal.abortedSignal none
      = .error { name := "AbortError", message := "The operation was aborted." } ∧
    EnhancedAbortSignal.throwIfAborted SignalSource.fresh (some "stop") = .ok () :=
  ⟨(throwIfAborted_iff_aborted _ (some "stop")).1 rfl,
   (throwIfAborted_iff_aborted _ none).1 rfl,
   (throwIfAborted_iff_aborted _ (some "stop")).2 rfl⟩

/-- A call on an `AbortRegistration`: `unregister()` or its alias
`dispose()`. -/
inductive RegOp where
  | unregisterOp
  | disposeOp
deriving Repr, DecidableEq

/-- Perform one registration call. -/
def AbortRegistration.runOp (r : AbortRegistration) :
    RegOp → AbortRegistration × Option RegAction
  | .unregisterOp => r.unregister
  | .disposeOp => r.dispose

/-- Perform a sequence of `unregister`/`dispose` calls, counting how many
of them actually invoked the stored removal action. -/
def AbortRegistration.runOps (r : AbortRegistration) (ops : List RegOp) :
    AbortRegistration × Nat :=
  ops.foldl
    (fun acc op =>
      let p := acc.1.runOp op
      (p.1, acc.2 + (if p.2.isSome then 1 else 0)))
    (r, 0)

theorem runOps_disposed_registration (ops : List RegOp) (n : Nat) :
    List.foldl
      (fun (acc : AbortRegistration × Nat) op =>
        let p := acc.1.runOp op
        (p.1, acc.2 + (if p.2.isSome then 1 else 0)))
      ({ disposed := true, unregisterCallback := none }, n) ops
      = ({ disposed := true, unregisterCallback := none }, n) := by
  induction ops with
  | nil => rfl
  | cons op ops ih =>
    have hstep : ({ disposed := true, unregisterCallback := none } : AbortRegistration).runOp op
        = ({ disposed := true, unregisterCallback := none }, none) := by
      cases op <;>
        simp [AbortRegistration.runOp, AbortRegistration.unregister,
          AbortRegistration.dispose]
    simp [List.foldl_cons, hstep, ih]

/-- Claim C6: for every removal action and every nonempty sequence of
`unregister()`/`dispose()` calls, in any interleaving, the removal action
is invoked exactly once; afterwards the registration is disposed and the
stored action reference is cleared, so every further call is a no-op. -/
theorem unregister_dispose_invoke_action_exactly_once
    (a : RegAction) (ops : List RegOp) (h : ops ≠ []) :
    (AbortRegistration.make a).runOps ops
      = ({ disposed := true, unregisterCallback := none }, 1) := by
  cases ops with
  | nil => exact absurd rfl h
  | cons op ops =>
    have hstep : (AbortRegistration.make a).runOp op
        = ({ disposed := true, unregisterCallback := none }, some a) := by
      cases op <;>
        simp [AbortRegistration.runOp, AbortRegistration.unregister,
          AbortRegistration.dispose, AbortRegistration.make]
    simp only [AbortRegistration.runOps, List.foldl_cons, hstep]
    simpa using runOps_disposed_registration ops 1

theorem unregister_dispose_once_witness :
    (AbortRegistration.make .noop).runOps
        [.unregisterOp, .disposeOp, .unregisterOp]
      = ({ disposed := true, unregisterCallback := none }, 1) :=
  unregister_dispose_invoke_action_exactly_once .noop
    [.unregisterOp, .disposeOp, .unregisterOp] (by decide)

/-- An operation on an `EnhancedAbortController`, including the timer
service delivering an absolute time. -/
inductive CtrlOp where
  | abortOp (r : Reason)
  | abortAfterOp (now ms : Nat)
  | disposeOp
  | tryResetOp
  | elapseOp (t : Nat)
deriving Repr, DecidableEq

/-- Perform one controller operation, returning the new state and the
callback ids it invoked. -/
def EnhancedAbortController.runOp (c : EnhancedAbortController) :
    CtrlOp → EnhancedAbortController × List Nat
  | .abortOp r => c.abort r
  | .abortAfterOp now ms => (c.abortAfter now ms, [])
  | .disposeOp => (c.dispose, [])
  | .tryResetOp => ((c.tryReset).1, [])
  | .elapseOp t => c.elapse t

/-- Perform a sequence of controller operations, accumulating the callback
invocation trace. -/
def EnhancedAbortController.runOps (c : EnhancedAbortController)
    (ops : List CtrlOp) : EnhancedAbortController × List Nat :=
  ops.foldl
    (fun acc op =>
      let p := acc.1.runOp op
      (p.1, acc.2 ++ p.2))
    (c, [])

theorem runOp_disposed (c : EnhancedAbortController) (h : c.disposed = true)
    (op : CtrlOp) : c.runOp op = (c, []) := by
  cases op with
  | abortOp r => simp [EnhancedAbortController.runOp,
      EnhancedAbortController.abort, h]
  | abortAfterOp now ms => simp [EnhancedAbortController.runOp,
      EnhancedAbortController.abortAfter, h]
  | disposeOp => simp [EnhancedAbortController.runOp,
      EnhancedAbortController.dispose, h]
  | tryResetOp => simp [EnhancedAbortController.runOp,
      EnhancedAbortController.tryReset, h]
  | elapseOp t =>
    cases htid : c.timeoutId with
    | none => simp [EnhancedAbortController.runOp,
        EnhancedAbortController.elapse, htid]
    | some d =>
      simp only [EnhancedAbortController.runOp, EnhancedAbortController.elapse,
        htid]
      split
      · simp [EnhancedAbortController.abort, h]
      · rfl

theorem runOps_disposed (c : EnhancedAbortController) (h : c.disposed = true)
    (ops : List CtrlOp) : c.runOps ops = (c, []) := by
  suffices hgen : ∀ ops (tr : List Nat),
      List.foldl
        (fun (acc : EnhancedAbortController × List Nat) op =>
          let p := acc.1.runOp op
          (p.1, acc.2 ++ p.2))
        (c, tr) ops = (c, tr) by
    simpa [EnhancedAbortController.runOps] using hgen ops []
  intro ops
  induction ops with
  | nil => intro tr; rfl
  | cons op ops ih =>
    intro tr
    simp [List.foldl_cons, runOp_disposed c h op, ih]

/-- Claim C7: after `dispose()`, every subsequent sequence of operations —
`abort`, `abortAfter`, further `dispose`/`tryReset` calls and any timer
deliveries — leaves the controller state exactly unchanged and invokes no
registered callback; `dispose` itself never fires the signal and never
changes the stored reason, so a disposed never-triggered controller's
signal remains permanently not-aborted. -/
theorem disposed_controller_is_inert (c : EnhancedAbortController)
    (ops : List CtrlOp) :
    (c.dispose).runOps ops = (c.dispose, []) ∧
    (c.dispose).isAborted = c.isAborted ∧
    (c.dispose).reason = c.reason ∧
    (c.dispose).disposed = true := by
  have hsrc : (c.dispose).source = c.source := by
    by_cases h : c.disposed = true <;>
      simp [EnhancedAbortController.dispose, h]
  have hdisp : (c.dispose).disposed = true := by
    by_cases h : c.disposed = true <;>
      simp [EnhancedAbortController.dispose, h]
  exact ⟨runOps_disposed _ hdisp ops,
    by simp [EnhancedAbortController.isAborted, hsrc],
    by simp [EnhancedAbortController.reason, hsrc],
    hdisp⟩

/-- Claim C8: `tryReset()` on a non-disposed controller (aborted or not)
returns `true` and replaces the owned source/signal pair by a fresh
not-aborted one with no pending timer; on a disposed controller it returns
`false` and changes nothing at all. -/
theorem tryReset_fresh_or_noop (c : EnhancedAbortController) :
    (c.disposed = false →
      c.tryReset
        = ({ source := SignalSource.fresh, timeoutId := none,
             disposed := false }, true) ∧
      (c.tryReset).1.isAborted = false) ∧
    (c.disposed = true → c.tryReset = (c, false)) := by
  constructor <;> intro h <;>
    simp [EnhancedAbortController.tryReset, EnhancedAbortController.isAborted,
      SignalSource.fresh, h]

theorem tryReset_witness :
    ((EnhancedAbortController.new.abort (some 3)).1.tryReset
        = ({ source := SignalSource.fresh, timeoutId := none,
             disposed := false }, true)) ∧
    (EnhancedAbortController.new.dispose.tryReset
        = (EnhancedAbortController.new.dispose, false)) :=
  ⟨((tryReset_fresh_or_noop (EnhancedAbortController.new.abort (some 3)).1).1
      (by decide)).1,
   (tryReset_fresh_or_noop EnhancedAbortController.new.dispose).2 (by decide)⟩

/-- Claim C9: issuing `abortAfter d1` at time `t1` and then `abortAfter d2`
at time `t2` before the first timer is due replaces the first timer — the
single pending timer is then due at `t2 + d2`, which lies strictly after
`t1 + d1`; delivering any time before `t2 + d2` (in particular `t1 + d1`)
changes nothing and fires nothing, while delivering `t2 + d2` aborts the
signal.  Moreover `abort` and `dispose` each cancel the pending timer. -/
theorem abortAfter_replaces_pending_timer (c : EnhancedAbortController)
    (t1 t2 d1 d2 : Nat) (hdisp : c.disposed = false) (ht : t1 ≤ t2)
    (_hlt : t2 < t1 + d1) (hd : d1 < d2) :
    ((c.abortAfter t1 d1).abortAfter t2 d2).timeoutId = some (t2 + d2) ∧
    t1 + d1 < t2 + d2 ∧
    (∀ u, u < t2 + d2 →
      ((c.abortAfter t1 d1).abortAfter t2 d2).elapse u
        = ((c.abortAfter t1 d1).abortAfter t2 d2, [])) ∧
    (((c.abortAfter t1 d1).abortAfter t2 d2).elapse (t2 + d2)).1.isAborted
      = true ∧
    (∀ r, ((c.abortAfter t1 d1).abort r).1.timeoutId = none) ∧
    ((c.abortAfter t1 d1).dispose).timeoutId = none := by
  have h1 : c.abortAfter t1 d1
      = { c with timeoutId := some (t1 + d1) } := by
    simp [EnhancedAbortController.abortAfter, EnhancedAbortController.clearTimeout,
      hdisp]
  have h2 : (c.abortAfter t1 d1).abortAfter t2 d2
      = { c with timeoutId := some (t2 + d2) } := by
    rw [h1]
    simp [EnhancedAbortController.abortAfter, EnhancedAbortController.clearTimeout,
      hdisp]
  refine ⟨by rw [h2], by omega, ?_, ?_, ?_, ?_⟩
  · intro u hu
    rw [h2]
    simp [EnhancedAbortController.elapse, Nat.not_le.mpr hu]
  · rw [h2]
    simp only [EnhancedAbortController.elapse, le_refl, if_true]
    by_cases hab : c.source.aborted = true <;>
      simp [EnhancedAbortController.abort, EnhancedAbortController.clearTimeout,
        SignalSource.abortSource, EnhancedAbortController.isAborted, hdisp, hab]
  · intro r
    rw [h1]
    by_cases hab : c.source.aborted = true <;>
      simp [EnhancedAbortController.abort, EnhancedAbortController.clearTimeout,
        SignalSource.abortSource, hdisp, hab]
  · rw [h1]
    simp [EnhancedAbortController.dispose, hdisp]

theorem abortAfter_replaces_timer_witness :
    ((EnhancedAbortController.new.abortAfter 0 5).abortAfter 1 7).timeoutId
      = some 8 ∧
    ((EnhancedAbortController.new.abortAfter 0 5).abortAfter 1 7).elapse 5
      = ((EnhancedAbortController.new.abortAfter 0 5).abortAfter 1 7, []) ∧
    (((EnhancedAbortController.new.abortAfter 0 5).abortAfter 1 7).elapse 8).1.isAborted
      = true := by
  have h := abortAfter_replaces_pending_timer EnhancedAbortController.new
    0 1 5 7 rfl (by decide) (by decide) (by decide)
  exact ⟨h.1, h.2.2.1 5 (by decide), h.2.2.2.1⟩

/-- The observable state of one use of the `whenAborted` getter on a
signal: the underlying signal's aborted flag, whether the resolve listener
the getter registered is still attached, whether the registration the
getter made has been disposed, whether the auto-unregister microtask the
getter scheduled via `Promise.resolve().then(...)` is still queued, and
whether the returned promise has been resolved. -/
structure WhenWorld where
  aborted : Bool
  listenerAttached : Bool
  regDisposed : Bool
  microtaskPending : Bool
  resolved : Bool
deriving Repr, DecidableEq

/-- A signal in the given aborted state on which `whenAborted` has not yet
been read. -/
def WhenWorld.start (aborted : Bool) : WhenWorld :=
  { aborted := aborted, listenerAttached := false, regDisposed := true,
    microtaskPending := false, resolved := false }

/-- Reading the `whenAborted` getter.  If the signal is already aborted the
getter returns `Promise.resolve()` — an already-resolved promise, with no
listener and no microtask.  Otherwise the promise executor runs
synchronously: it registers the listener `() => resolve()` on the signal
and immediately schedules `() => registration.unregister()` on the
microtask queue via `Promise.resolve().then(...)`. -/
def WhenWorld.whenAbortedGet (w : WhenWorld) : WhenWorld :=
  if w.aborted then { w with resolved := true }
  else { w with listenerAttached := true, regDisposed := false,
                microtaskPending := true }

/-- Draining the microtask queue (this happens as soon as the current
synchronous turn ends, e.g. at the first `await`): the queued
`registration.unregister()` runs, removing the resolve listener from the
signal. -/
def WhenWorld.drainMicrotasks (w : WhenWorld) : WhenWorld :=
  if w.microtaskPending then
    if !w.regDisposed then
      { w with microtaskPending := false, listenerAttached := false,
               regDisposed := true }
    else { w with microtaskPending := false }
  else w

/-- The underlying source firing: a no-op when already aborted, otherwise
the signal becomes aborted and the resolve listener, if still attached,
fires once (resolving the promise) and is removed (`{ once := true }`). -/
def WhenWorld.fire (w : WhenWorld) : WhenWorld :=
  if w.aborted then w
  else if w.listenerAttached then
    { w with aborted := true, resolved := true, listenerAttached := false }
  else { w with aborted := true }

/-- Claim C3, behaviour at the failing input: on a not-yet-aborted signal,
reading `whenAborted` schedules the auto-unregister microtask immediately —
not after resolution.  Once the current turn's microtasks drain (before the
source fires), the resolve listener is already removed, so a later abort
never resolves the promise: the claim's "the listener is removed after
(not before) that resolution, so no resolution is missed" is exactly what
the code fails to do.  An abort in the same synchronous turn, and a read on
an already-aborted signal, do resolve. -/
theorem whenAborted_unregisters_before_resolution :
    (((WhenWorld.start false).whenAbortedGet.drainMicrotasks.fire).resolved
        = false ∧
      ((WhenWorld.start false).whenAbortedGet.drainMicrotasks.fire).aborted
        = true ∧
      ((WhenWorld.start false).whenAbortedGet.drainMicrotasks).listenerAttached
        = false) ∧
    ((WhenWorld.start false).whenAbortedGet.fire).resolved = true ∧
    ((WhenWorld.start true).whenAbortedGet).resolved = true := by decide

/-- The state of one `linkSignals`/`createLinkedController` construction:
the input signals' sources (each carrying its attached link listeners),
the linked `EnhancedAbortController`, and the ordered trace of user
callbacks invoked on the linked controller's signal. -/
structure LinkWorld where
  inputs : List SignalSource
  linked : EnhancedAbortController
  trace : List Nat
deriving Repr, DecidableEq

/-- Running the link closure `() => controller.abort()` once: aborts the
accumulated controller (with no reason) and extends the accumulated user
callback trace. -/
def LinkWorld.linkAbortStep (acc : EnhancedAbortController × List Nat)
    (_ : Listener) : EnhancedAbortController × List Nat :=
  let q := acc.1.abort none
  (q.1, acc.2 ++ q.2)

/-- Run the closure `() => controller.abort()` once per fired input
listener, accumulating the linked controller's state and the user
callbacks its abort invokes. -/
def LinkWorld.runLinkCallbacks (c : EnhancedAbortController)
    (fired : List Listener) : EnhancedAbortController × List Nat :=
  fired.foldl LinkWorld.linkAbortStep (c, [])

/-- One iteration of the loop in `linkSignals`:
`signal.register(() => controller.abort())`.  On an already-aborted input
the closure runs immediately (during construction); otherwise the closure
is attached as a listener on the input (on input sources every listener is
this link closure, so the callback id is irrelevant and fixed to `0`).
The returned registration is privately owned and dropped. -/
def LinkWorld.linkStep (w : LinkWorld) (s : SignalSource) : LinkWorld :=
  let res := EnhancedAbortSignal.register s 0
  let p := LinkWorld.runLinkCallbacks w.linked
    (res.fired.map (fun cb => { tok := 0, cb := cb }))
  { inputs := w.inputs ++ [res.src], linked := p.1, trace := w.trace ++ p.2 }

/-- `EnhancedAbortController.linkSignals(...signals)`: constructs a fresh
controller, then registers the link closure on every input in order. -/
def EnhancedAbortController.linkSignals (signals : List SignalSource) :
    LinkWorld :=
  signals.foldl LinkWorld.linkStep
    { inputs := [], linked := EnhancedAbortController.new, trace := [] }

/-- Registering a user callback on the linked controller's signal. -/
def LinkWorld.registerOnLinked (w : LinkWorld) (cb : Nat) : LinkWorld :=
  let res := EnhancedAbortSignal.register w.linked.source cb
  { w with linked := { w.linked with source := res.src },
           trace := w.trace ++ res.fired }

/-- Registering a list of user callbacks on the linked controller's
signal, in order. -/
def LinkWorld.registerAllOnLinked (w : LinkWorld) (cbs : List Nat) :
    LinkWorld :=
  cbs.foldl LinkWorld.registerOnLinked w

/-- Triggering input `i` with reason `r`: its own controller aborts the
input's source; every link listener that fires runs
`() => linkedController.abort()` — with no reason — in order. -/
def LinkWorld.triggerInput (w : LinkWorld) (i : Nat) (r : Reason) :
    LinkWorld :=
  match w.inputs[i]? with
  | none => w
  | some s =>
      let p := s.abortSource r
      let q := LinkWorld.runLinkCallbacks w.linked p.2
      { inputs := w.inputs.set i p.1, linked := q.1, trace := w.trace ++ q.2 }

/-- Triggering a sequence of inputs, in order. -/
def LinkWorld.triggerAll (w : LinkWorld) (evs : List (Nat × Reason)) :
    LinkWorld :=
  evs.foldl (fun w ev => w.triggerInput ev.1 ev.2) w

/-- `EnhancedAbortSignal.any(signals)`: one step of its loop — again
`signal.register(() => controller.abort())`, but the downstream target is
the bare platform controller, with no listeners of its own yet. -/
def EnhancedAbortSignal.anyStep (acc : SignalSource × List SignalSource)
    (s : SignalSource) : SignalSource × List SignalSource :=
  let res := EnhancedAbortSignal.register s 0
  let out := res.fired.foldl (fun (o : SignalSource) _ => (o.abortSource none).1)
    acc.1
  (out, acc.2 ++ [res.src])

/-- `EnhancedAbortSignal.any(signals)`: the combined downstream source
together with the input sources as modified by the registrations. -/
def EnhancedAbortSignal.any (signals : List SignalSource) :
    SignalSource × List SignalSource :=
  signals.foldl EnhancedAbortSignal.anyStep (SignalSource.fresh, [])

theorem abort_source_aborted (c : EnhancedAbortController) (r : Reason) :
    (c.abort r).1.source.aborted = (c.source.aborted || !c.disposed) := by
  by_cases h : c.disposed = true
  · simp [EnhancedAbortController.abort, h]
  · rw [Bool.not_eq_true] at h
    by_cases hab : c.source.aborted = true <;>
      simp [EnhancedAbortController.abort, EnhancedAbortController.clearTimeout,
        SignalSource.abortSource, h, hab]

theorem abort_preserves_disposed (c : EnhancedAbortController) (r : Reason) :
    (c.abort r).1.disposed = c.disposed := by
  by_cases h : c.disposed = true
  · simp [EnhancedAbortController.abort, h]
  · rw [Bool.not_eq_true] at h
    by_cases hab : c.source.aborted = true <;>
      simp [EnhancedAbortController.abort, EnhancedAbortController.clearTimeout,
        SignalSource.abortSource, h, hab]

theorem abort_already_aborted (c : EnhancedAbortController) (r : Reason)
    (hab : c.source.aborted = true) (hdisp : c.disposed = false)
    (htid : c.timeoutId = none) : c.abort r = (c, []) := by
  obtain ⟨src, tid, d⟩ := c
  simp only at hab hdisp htid
  subst hdisp htid
  simp [EnhancedAbortController.abort, EnhancedAbortController.clearTimeout,
    SignalSource.abortSource, hab]

theorem runLinkCallbacks_inert (fired : List Listener)
    (c : EnhancedAbortController) (hab : c.source.aborted = true)
    (hdisp : c.disposed = false) (htid : c.timeoutId = none) :
    LinkWorld.runLinkCallbacks c fired = (c, []) := by
  suffices hgen : ∀ fired (tr : List Nat),
      List.foldl LinkWorld.linkAbortStep (c, tr) fired = (c, tr) by
    simpa [LinkWorld.runLinkCallbacks] using hgen fired []
  intro fired
  induction fired with
  | nil => intro tr; rfl
  | cons l fired ih =>
    intro tr
    simp [List.foldl_cons, LinkWorld.linkAbortStep,
      abort_already_aborted c none hab hdisp htid, ih]

theorem triggerInput_linked_inert (w : LinkWorld) (j : Nat) (r : Reason)
    (hab : w.linked.source.aborted = true) (hdisp : w.linked.disposed = false)
    (htid : w.linked.timeoutId = none) :
    (w.triggerInput j r).linked = w.linked ∧
    (w.triggerInput j r).trace = w.trace := by
  unfold LinkWorld.triggerInput
  cases hj : w.inputs[j]? with
  | none => exact ⟨rfl, rfl⟩
  | some s =>
    simp [runLinkCallbacks_inert _ w.linked hab hdisp htid]

theorem triggerAll_linked_inert (evs : List (Nat × Reason)) :
    ∀ w : LinkWorld, w.linked.source.aborted = true →
      w.linked.disposed = false → w.linked.timeoutId = none →
      (w.triggerAll evs).linked = w.linked ∧
      (w.triggerAll evs).trace = w.trace := by
  induction evs with
  | nil => exact fun w _ _ _ => ⟨rfl, rfl⟩
  | cons ev evs ih =>
    intro w hab hdisp htid
    have h1 := triggerInput_linked_inert w ev.1 ev.2 hab hdisp htid
    have hstep : w.triggerAll (ev :: evs)
        = (w.triggerInput ev.1 ev.2).triggerAll evs := rfl
    have h2 := ih (w.triggerInput ev.1 ev.2) (by rw [h1.1]; exact hab)
      (by rw [h1.1]; exact hdisp) (by rw [h1.1]; exact htid)
    exact ⟨by rw [hstep, h2.1, h1.1], by rw [hstep, h2.2, h1.2]⟩

theorem registerAllOnLinked_not_aborted (cbs : List Nat) :
    ∀ w : LinkWorld, w.linked.source.aborted = false →
      w.registerAllOnLinked cbs
        = { inputs := w.inputs,
            linked := { source := registerAll w.linked.source cbs,
                        timeoutId := w.linked.timeoutId,
                        disposed := w.linked.disposed },
            trace := w.trace } := by
  induction cbs with
  | nil => intro w h; rfl
  | cons cb cbs ih =>
    intro w h
    have hone : w.registerOnLinked cb
        = { inputs := w.inputs,
            linked := { w.linked with
              source := (EnhancedAbortSignal.register w.linked.source cb).src },
            trace := w.trace } := by
      simp [LinkWorld.registerOnLinked, EnhancedAbortSignal.register,
        EnhancedAbortSignal.isAborted, h]
    have hsrc : (EnhancedAbortSignal.register w.linked.source cb).src.aborted
        = false := by
      simp [EnhancedAbortSignal.register, EnhancedAbortSignal.isAborted, h]
    have hstep : w.registerAllOnLinked (cb :: cbs)
        = (w.registerOnLinked cb).registerAllOnLinked cbs := rfl
    rw [hstep, hone]
    exact ih _ (by simpa using hsrc)

/-- The state of each of the three fresh input sources right after
`linkSignals` attached its link listener. -/
def linkedInput : SignalSource :=
  { aborted := false, reason := none,
    listeners := [{ tok := 0, cb := 0 }], nextTok := 1 }

/-- The worked scenario of the spec: three fresh signals A, B, C linked
into one controller. -/
def threeFreshLinked : LinkWorld :=
  EnhancedAbortController.linkSignals
    [SignalSource.fresh, SignalSource.fresh, SignalSource.fresh]

theorem threeFreshLinked_eq :
    threeFreshLinked
      = { inputs := [linkedInput, linkedInput, linkedInput],
          linked := EnhancedAbortController.new, trace := [] } := by decide

theorem controllerWithListeners_eq (cbs : List Nat) :
    controllerWithListeners cbs
      = { source := registerAll SignalSource.fresh cbs, timeoutId := none,
          disposed := false } := rfl

theorem triggerInput_on_linked3 (cbs : List Nat) (i : Nat) (hi : i < 3)
    (r : Reason) :
    ((threeFreshLinked.registerAllOnLinked cbs).triggerInput i r).trace = cbs ∧
    ((threeFreshLinked.registerAllOnLinked cbs).triggerInput i r).linked
      = controllerAfterAbort cbs none := by
  have hw : threeFreshLinked.registerAllOnLinked cbs
      = { inputs := [linkedInput, linkedInput, linkedInput],
          linked := controllerWithListeners cbs, trace := [] } := by
    rw [threeFreshLinked_eq,
      registerAllOnLinked_not_aborted cbs _ (by decide)]
    rw [controllerWithListeners_eq]
    rfl
  have habort := abort_controllerWithListeners cbs none
  have hrun : LinkWorld.runLinkCallbacks (controllerWithListeners cbs)
      [{ tok := 0, cb := 0 }]
      = (controllerAfterAbort cbs none, cbs) := by
    simp [LinkWorld.runLinkCallbacks, LinkWorld.linkAbortStep, habort]
  rw [hw]
  interval_cases i <;>
    simp [LinkWorld.triggerInput, linkedInput, SignalSource.abortSource, hrun]

/-- Claim C4, counterexample: with three fresh signals linked and one user
callback registered on the linked controller's signal, triggering the
first input with reason `7` leaves the linked controller's reason at the
no-reason default, not at `7` — the link callback is `() => controller.abort()`
and forwards no reason, so the linked reason never equals the input's. -/
theorem linked_reason_is_not_first_input_reason :
    ¬ (((threeFreshLinked.registerAllOnLinked [0]).triggerInput 0
          (some 7)).linked.reason = some 7) := by decide

/-- Claim C4, amended: for three fresh signals linked via `linkSignals`
with user callbacks `cbs` registered on the linked controller's signal,
triggering any one input (with any reason) and then any further sequence
of input triggers fires the linked controller's signal exactly once — the
user callbacks run exactly once, in order, at the first trigger, and the
linked controller's state never changes again — and the linked
controller's reason is the no-reason default (`none`), not the triggering
input's reason. -/
theorem linked_fires_once_with_default_reason (i : Nat) (hi : i < 3)
    (r : Reason) (rest : List (Nat × Reason)) (cbs : List Nat) :
    ((threeFreshLinked.registerAllOnLinked cbs).triggerInput i r).trace = cbs ∧
    ((threeFreshLinked.registerAllOnLinked cbs).triggerInput i
        r).linked.isAborted = true ∧
    ((threeFreshLinked.registerAllOnLinked cbs).triggerInput i
        r).linked.reason = none ∧
    ((((threeFreshLinked.registerAllOnLinked cbs).triggerInput i
        r)).triggerAll rest).trace = cbs ∧
    ((((threeFreshLinked.registerAllOnLinked cbs).triggerInput i
        r)).triggerAll rest).linked
      = ((threeFreshLinked.registerAllOnLinked cbs).triggerInput i
          r).linked := by
  obtain ⟨htr, hlk⟩ := triggerInput_on_linked3 cbs i hi r
  have hrest := triggerAll_linked_inert rest
    ((threeFreshLinked.registerAllOnLinked cbs).triggerInput i r)
    (by rw [hlk]; rfl) (by rw [hlk]; rfl) (by rw [hlk]; rfl)
  refine ⟨htr, by rw [hlk]; rfl, by rw [hlk]; rfl, ?_, hrest.1⟩
  rw [hrest.2, htr]

theorem linked_fires_once_witness :
    ((threeFreshLinked.registerAllOnLinked [4, 9]).triggerInput 0
        (some 7)).trace = [4, 9] ∧
    ((threeFreshLinked.registerAllOnLinked [4, 9]).triggerInput 0
        (some 7)).linked.reason = none :=
  ⟨(linked_fires_once_with_default_reason 0 (by decide) (some 7) [] [4, 9]).1,
   (linked_fires_once_with_default_reason 0 (by decide) (some 7) [] [4, 9]).2.2.1⟩

theorem abortSource_keeps_aborted (s : SignalSource) (r : Reason)
    (h : s.aborted = true) : (s.abortSource r).1.aborted = true := by
  simp [SignalSource.abortSource, h]

theorem abortSource_fold_keeps_aborted (fired : List Nat) :
    ∀ o : SignalSource, o.aborted = true →
      (fired.foldl (fun (o : SignalSource) _ => (o.abortSource none).1) o).aborted
        = true := by
  induction fired with
  | nil => exact fun o h => h
  | cons x fired ih =>
    intro o h
    exact ih _ (abortSource_keeps_aborted o none h)

theorem anyStep_keeps_aborted (acc : SignalSource × List SignalSource)
    (s : SignalSource) (h : acc.1.aborted = true) :
    (EnhancedAbortSignal.anyStep acc s).1.aborted = true := by
  unfold EnhancedAbortSignal.anyStep
  exact abortSource_fold_keeps_aborted _ _ h

theorem anyStep_aborted_input (acc : SignalSource × List SignalSource)
    (s : SignalSource) (h : s.aborted = true) :
    (EnhancedAbortSignal.anyStep acc s).1.aborted = true := by
  have hreg : (EnhancedAbortSignal.register s 0).fired = [0] := by
    simp [EnhancedAbortSignal.register, EnhancedAbortSignal.isAborted, h]
  simp only [EnhancedAbortSignal.anyStep, hreg]
  by_cases hab : acc.1.aborted = true <;>
    simp [List.foldl_cons, SignalSource.abortSource, hab]

theorem anyFold_aborted (l : List SignalSource) :
    ∀ acc : SignalSource × List SignalSource,
      (∃ s ∈ l, s.aborted = true) ∨ acc.1.aborted = true →
      (l.foldl EnhancedAbortSignal.anyStep acc).1.aborted = true := by
  induction l with
  | nil =>
    intro acc h
    rcases h with ⟨s, hs, _⟩ | h
    · exact absurd hs (List.not_mem_nil s)
    · exact h
  | cons x l ih =>
    intro acc h
    rw [List.foldl_cons]
    rcases h with ⟨s, hs, habs⟩ | h
    · rcases List.mem_cons.mp hs with heq | hmem
      · exact ih _ (Or.inr (anyStep_aborted_input acc x (heq ▸ habs)))
      · exact ih _ (Or.inl ⟨s, hmem, habs⟩)
    · exact ih _ (Or.inr (anyStep_keeps_aborted acc x h))

theorem linkAbortStep_fold_disposed (fired : List Listener) :
    ∀ acc : EnhancedAbortController × List Nat,
      (List.foldl LinkWorld.linkAbortStep acc fired).1.disposed
        = acc.1.disposed := by
  induction fired with
  | nil => intro acc; rfl
  | cons x fired ih =>
    intro acc
    rw [List.foldl_cons]
    exact (ih _).trans (abort_preserves_disposed acc.1 none)

theorem linkAbortStep_fold_aborted (fired : List Listener) :
    ∀ acc : EnhancedAbortController × List Nat,
      acc.1.source.aborted = true →
      (List.foldl LinkWorld.linkAbortStep acc fired).1.source.aborted
        = true := by
  induction fired with
  | nil => exact fun acc h => h
  | cons x fired ih =>
    intro acc h
    rw [List.foldl_cons]
    exact ih _ (by simp [LinkWorld.linkAbortStep, abort_source_aborted, h])

theorem runLinkCallbacks_preserves_disposed (fired : List Listener)
    (c : EnhancedAbortController) :
    ((LinkWorld.runLinkCallbacks c fired).1).disposed = c.disposed :=
  linkAbortStep_fold_disposed fired (c, [])

theorem runLinkCallbacks_source_aborted (fired : List Listener)
    (c : EnhancedAbortController) (h : c.source.aborted = true) :
    ((LinkWorld.runLinkCallbacks c fired).1).source.aborted = true :=
  linkAbortStep_fold_aborted fired (c, []) h

theorem runLinkCallbacks_fires (fired : List Listener) (hne : fired ≠ [])
    (c : EnhancedAbortController) (hdisp : c.disposed = false) :
    ((LinkWorld.runLinkCallbacks c fired).1).source.aborted = true := by
  cases fired with
  | nil => exact absurd rfl hne
  | cons x fired =>
    have hstep : LinkWorld.linkAbortStep (c, []) x
        = ((c.abort none).1, [] ++ (c.abort none).2) := rfl
    have h1 : ((c.abort none).1).source.aborted = true := by
      simp [abort_source_aborted, hdisp]
    unfold LinkWorld.runLinkCallbacks
    rw [List.foldl_cons, hstep]
    exact linkAbortStep_fold_aborted fired _ h1

theorem linkStep_preserves_disposed (w : LinkWorld) (s : SignalSource) :
    (w.linkStep s).linked.disposed = w.linked.disposed := by
  unfold LinkWorld.linkStep
  exact runLinkCallbacks_preserves_disposed _ _

theorem linkStep_keeps_aborted (w : LinkWorld) (s : SignalSource)
    (h : w.linked.source.aborted = true) :
    (w.linkStep s).linked.source.aborted = true := by
  unfold LinkWorld.linkStep
  exact runLinkCallbacks_source_aborted _ _ h

theorem linkStep_aborted_input (w : LinkWorld) (s : SignalSource)
    (hdisp : w.linked.disposed = false) (h : s.aborted = true) :
    (w.linkStep s).linked.source.aborted = true := by
  have hreg : (EnhancedAbortSignal.register s 0).fired = [0] := by
    simp [EnhancedAbortSignal.register, EnhancedAbortSignal.isAborted, h]
  simp only [LinkWorld.linkStep, hreg, List.map_cons, List.map_nil]
  exact runLinkCallbacks_fires _ (by simp) _ hdisp

theorem linkFold_aborted (l : List SignalSource) :
    ∀ w : LinkWorld, w.linked.disposed = false →
      (∃ s ∈ l, s.aborted = true) ∨ w.linked.source.aborted = true →
      (l.foldl LinkWorld.linkStep w).linked.source.aborted = true := by
  induction l with
  | nil =>
    intro w _ h
    rcases h with ⟨s, hs, _⟩ | h
    · exact absurd hs (List.not_mem_nil s)
    · exact h
  | cons x l ih =>
    intro w hdisp h
    rw [List.foldl_cons]
    have hdisp' : (w.linkStep x).linked.disposed = false := by
      rw [linkStep_preserves_disposed]; exact hdisp
    rcases h with ⟨s, hs, habs⟩ | h
    · rcases List.mem_cons.mp hs with heq | hmem
      · exact ih _ hdisp'
          (Or.inr (linkStep_aborted_input w x hdisp (heq ▸ habs)))
      · exact ih _ hdisp' (Or.inl ⟨s, hmem, habs⟩)
    · exact ih _ hdisp' (Or.inr (linkStep_keeps_aborted w x h))

/-- Claim C10: when the input list given to `Signal.any` or `linkSignals`
contains a signal that is already aborted at construction time, the
combined downstream signal (respectively the linked controller's signal)
is already aborted when the combinator returns: `register` on an aborted
input invokes the abort closure synchronously during construction. -/
theorem combinators_fire_on_pre_aborted_input (signals : List SignalSource)
    (h : ∃ s ∈ signals, s.aborted = true) :
    (EnhancedAbortSignal.any signals).1.aborted = true ∧
    (EnhancedAbortController.linkSignals signals).linked.isAborted = true := by
  constructor
  · exact anyFold_aborted signals _ (Or.inl h)
  · exact linkFold_aborted signals _ rfl (Or.inl h)

theorem combinators_pre_aborted_witness :
    (EnhancedAbortSignal.any
        [SignalSource.fresh, EnhancedAbortSignal.abortedSignal]).1.aborted
      = true ∧
    (EnhancedAbortController.linkSignals
        [SignalSource.fresh, EnhancedAbortSignal.abortedSignal]).linked.isAborted
      = true :=
  combinators_fire_on_pre_aborted_input
    [SignalSource.fresh, EnhancedAbortSignal.abortedSignal]
    ⟨EnhancedAbortSignal.abortedSignal, by decide, by decide⟩

end EnhancedAbort
